import Mathlib

/-!
Verification development for the pgxn/build crate: a shallow embedding of
the pipeline-detection and execution core (src/lib.rs, src/pgxs/mod.rs,
src/pgrx/mod.rs, src/pipeline/mod.rs, src/exec/mod.rs, src/pg_config/mod.rs)
together with theorems settling the specification claims.

Modelling conventions:
* Machine integers (`u8` scores, exit codes) are `Nat`; no arithmetic in the
  source overflows.
* `std::collections::HashMap<String, String>` is modelled by its lookup
  function (insertion is point update) for the `pg_config` table, and by an
  association list for the small detection-context maps; both match HashMap
  observable semantics.
* Fallible operations return `Except`; external-world effects (process
  spawning, pipe reads, exit statuses, the filesystem writability probe) are
  passed in explicitly as data.
* The error enum in the tree (src/error/mod.rs) is an older revision of the
  crate that lacks the `Command`, `NoPipeline`, `SelectPackage` and
  `NoPackage` constructors used by the other source files; the constructor
  shapes below are taken from those uses in the source files themselves.
-/

/-- Build errors, per src/error/mod.rs and the constructor uses in
src/lib.rs, src/exec/mod.rs, src/pipeline/mod.rs and src/pgrx/mod.rs.
`Command` carries the command description and a message; `Io` wraps the
string rendering of an I/O error (the `#[from] io::Error` conversion);
`UnknownPipeline` carries the unrecognized pipeline name. -/
inductive BuildError where
  | Command (desc : String) (msg : String)
  | Io (msg : String)
  | UnknownPipeline (name : String)
  | NoPipeline
  | SelectPackage (members : List String)
  | NoPackage
  deriving DecidableEq, Repr

/-- Exit status of a child process: `status.code()` is `Some code` or, for
signal termination on Unix, `None`. -/
inductive ExitStatus where
  | code (n : Nat)
  | signal
  deriving DecidableEq, Repr

/-- A command to execute: program plus argument list (the working-directory
setting is irrelevant to the claims and omitted). -/
structure Cmd where
  program : String
  args : List String
  deriving DecidableEq, Repr

/-- `char::to_ascii_lowercase` on one character: map each ASCII uppercase
letter to its lowercase counterpart, leave every other character alone. -/
def lowerChar : Char → Char
  | 'A' => 'a' | 'B' => 'b' | 'C' => 'c' | 'D' => 'd' | 'E' => 'e'
  | 'F' => 'f' | 'G' => 'g' | 'H' => 'h' | 'I' => 'i' | 'J' => 'j'
  | 'K' => 'k' | 'L' => 'l' | 'M' => 'm' | 'N' => 'n' | 'O' => 'o'
  | 'P' => 'p' | 'Q' => 'q' | 'R' => 'r' | 'S' => 's' | 'T' => 't'
  | 'U' => 'u' | 'V' => 'v' | 'W' => 'w' | 'X' => 'x' | 'Y' => 'y'
  | 'Z' => 'z'
  | c => c

/-- `str::to_ascii_lowercase`: lower every ASCII uppercase letter of the
string (character-wise, which for the ASCII range agrees with Rust's
byte-wise definition). -/
def asciiLower (s : String) : String :=
  ⟨s.data.map lowerChar⟩

/-- `BufRead::lines` on valid UTF-8 input: split on newline, drop a final
empty segment produced by a trailing newline, and strip one trailing
carriage return from each line. -/
def rustLines (s : String) : List String :=
  let parts := s.split (fun c => c == '\n')
  let parts := if parts.getLast? == some "" then parts.dropLast else parts
  parts.map (fun l => if l.endsWith "\r" then l.dropRight 1 else l)

/-- `line.splitn(2, " = ")` followed by taking the first and the remaining
segment, on the character list of the line: split at the first occurrence of
the three-character delimiter; `none` when the delimiter does not occur. -/
def splitDelim : List Char → Option (List Char × List Char)
  | ' ' :: '=' :: ' ' :: rest => some ([], rest)
  | c :: rest =>
      match splitDelim rest with
      | some (a, b) => some (c :: a, b)
      | none => none
  | [] => none

/-- One line of `pg_config` output parsed into a key/value pair: the text
before the first " = " and the rest of the line; `none` when the line has no
delimiter (such lines are skipped). -/
def splitKV (line : String) : Option (String × String) :=
  match splitDelim line.toList with
  | some (k, v) => some (String.mk k, String.mk v)
  | none => none

/-- The `pg_config` key/value table (src/pg_config/mod.rs): a
`HashMap<String, String>` modelled by its lookup function. -/
structure PgConfig where
  table : String → Option String

/-- `PgConfig::get`: exact lookup of a key in the table. -/
def PgConfig.get (c : PgConfig) (k : String) : Option String :=
  c.table k

/-- `HashMap::insert` on the lookup-function model: point update. -/
def insertKV (m : String → Option String) (k v : String) : String → Option String :=
  fun x => if x = k then some v else m x

/-- The parsing loop of `PgConfig::new` (src/pg_config/mod.rs lines 29-38):
for each output line that splits on " = ", insert the ASCII-lowercased first
segment as key with the remainder of the line as value; skip the rest. -/
def pgConfigParse (lines : List String) : PgConfig :=
  ⟨lines.foldl
    (fun m line =>
      match splitKV line with
      | some p => insertKV m (asciiLower p.1) p.2
      | none => m)
    (fun _ => none)⟩

/-! ### The PGXS (make-based) pipeline, src/pgxs/mod.rs -/

/-- The regex class `\s` in the regex crate's default Unicode mode:
`\p{White_Space}`, i.e. U+0009-U+000D, U+0020, U+0085, U+00A0, U+1680,
U+2000-U+200A, U+2028, U+2029, U+202F, U+205F and U+3000. -/
def wsChar (c : Char) : Bool :=
  [ '\t', '\n', '\x0b', '\x0c', '\r', ' ',
    '\u0085', '\u00A0', '\u1680',
    '\u2000', '\u2001', '\u2002', '\u2003', '\u2004', '\u2005',
    '\u2006', '\u2007', '\u2008', '\u2009', '\u200A',
    '\u2028', '\u2029', '\u202F', '\u205F', '\u3000'
  ].contains c

/-- The suffix `\s*[:?]?=` shared by both makefile-variable regexes: skip
whitespace, then an equals sign optionally preceded by a colon or question
mark. Greedy `\s*` is deterministic here because whitespace is disjoint
from `:`, `?` and `=`. -/
def assignTail (cs : List Char) : Bool :=
  match cs.dropWhile wsChar with
  | '=' :: _ => true
  | ':' :: '=' :: _ => true
  | '?' :: '=' :: _ => true
  | _ => false

/-- A line matches `^KEY\s*[:?]?=` for the literal `KEY`. -/
def matchKeyAssign (key : String) (line : String) : Bool :=
  let cs := line.toList
  let ks := key.toList
  ks.isPrefixOf cs && assignTail (cs.drop ks.length)

/-- The `pgc_rx` regex of `Pgxs::evaluate`: `^PG_CONFIG\s*[:?]?=\s*`
(the trailing `\s*` never affects `is_match`). -/
def pgcMatch (line : String) : Bool :=
  matchKeyAssign "PG_CONFIG" line

/-- The `var_rx` regex of `Pgxs::evaluate`:
`^(MODULE(?:S|_big)|PROGRAM|EXTENSION|DATA(?:_built)?)\s*[:?]?=`, expanded
into its six literal alternatives. -/
def varMatch (line : String) : Bool :=
  [ "MODULES", "MODULE_big", "PROGRAM", "EXTENSION", "DATA_built", "DATA"
  ].any (fun k => matchKeyAssign k line)

/-- One iteration of the scanning loop in `Pgxs::evaluate`: a `PG_CONFIG`
line sets the score to 255, otherwise an extension-variable line sets it to
200, otherwise the score is unchanged. There is no short circuit, so a
later match overwrites an earlier one. -/
def pgxsLineScore (score : Nat) (line : String) : Nat :=
  if pgcMatch line then 255
  else if varMatch line then 200
  else score

/-- The whole scan of an opened makefile, starting from the base score 127. -/
def pgxsScoreLines (lines : List String) : Nat :=
  lines.foldl pgxsLineScore 127

/-- The directory as seen by `Pgxs::evaluate`: the contents (line lists) of
the files named GNUmakefile, makefile and Makefile when they exist, plus
whether `File::open` on the chosen file fails (in which case the score
stays at its initial 127). -/
structure MakeDir where
  gnumakefile : Option (List String)
  makefileLower : Option (List String)
  makefileUpper : Option (List String)
  openFails : Bool
  deriving DecidableEq, Repr

/-- The `makefile` helper of src/pgxs/mod.rs: the first existing file among
GNUmakefile, makefile, Makefile. -/
def chooseMakefile (d : MakeDir) : Option (List String) :=
  (d.gnumakefile.orElse fun _ => d.makefileLower).orElse fun _ => d.makefileUpper

/-- The detection context returned by `evaluate` (src/pipeline's newer
revision): a score, a config map, and an optional recorded error. -/
structure Context where
  score : Nat
  config : List (String × String)
  err : Option BuildError
  deriving DecidableEq, Repr

/-- `Pgxs::evaluate` (src/pgxs/mod.rs lines 42-79): score 0 without a
makefile; otherwise scan the file, starting from 127. -/
def pgxsEvaluate (d : MakeDir) : Context :=
  match chooseMakefile d with
  | none => ⟨0, [], none⟩
  | some lines => ⟨if d.openFails then 127 else pgxsScoreLines lines, [], none⟩

/-- `Pgxs::confidence`: the score of the evaluation context. -/
def pgxsConfidence (d : MakeDir) : Nat :=
  (pgxsEvaluate d).score

/-! ### The pgrx (framework-based) pipeline, src/pgrx/mod.rs -/

/-- The `[workspace]` table of a parsed Cargo.toml: the key set of
`workspace.dependencies` and the `workspace.members` list. -/
structure Workspace where
  dependencies : List String
  members : List String
  deriving DecidableEq, Repr

/-- A parsed Cargo.toml manifest, restricted to the fields
`Pgrx::evaluate` and `get_score` consult: the `[package]` name when a
package table is present, the key set of `[dependencies]`, and the optional
`[workspace]` table. -/
structure Manifest where
  package : Option String
  dependencies : List String
  workspace : Option Workspace
  deriving DecidableEq, Repr

/-- The state of `Cargo.toml` in a directory: absent, present but failing
`Manifest::from_path`, or parsed. -/
inductive CargoToml where
  | absent
  | unparsable
  | parsed (m : Manifest)
  deriving DecidableEq, Repr

/-- `get_score` (src/pgrx/mod.rs lines 117-131): 255 when `pgrx` is a key
of the dependencies table, or of the workspace dependencies table;
otherwise 0. -/
def get_score (cargo : Manifest) : Nat :=
  if cargo.dependencies.contains "pgrx" then 255
  else
    match cargo.workspace with
    | some work => if work.dependencies.contains "pgrx" then 255 else 0
    | none => 0

/-- `Pgrx::evaluate` (src/pgrx/mod.rs lines 44-94): 0 without a Cargo.toml;
with a parsed manifest scoring positive, record the package name in the
config map, or, lacking a package, record a `SelectPackage`/`NoPackage`
error with an empty config; otherwise (unparsable, or parsed without a
pgrx dependency) weak confidence 1. -/
def pgrxEvaluate : CargoToml → Context
  | .absent => ⟨0, [], none⟩
  | .unparsable => ⟨1, [], none⟩
  | .parsed cargo =>
      let score := get_score cargo
      if score > 0 then
        match cargo.package with
        | some pkg => ⟨score, [("package", pkg)], none⟩
        | none =>
            match cargo.workspace with
            | some work =>
                if work.members ≠ [] then
                  ⟨score, [], some (.SelectPackage work.members)⟩
                else ⟨score, [], some .NoPackage⟩
            | none => ⟨score, [], some .NoPackage⟩
      else ⟨1, [], none⟩

/-- `Pgrx::confidence`: the score of the evaluation context. -/
def pgrxConfidence (c : CargoToml) : Nat :=
  (pgrxEvaluate c).score

/-- Outcome of a Rust computation that may panic (an `Option::unwrap` on
`None` panics). -/
inductive PanicOr (α : Type) where
  | panics
  | ok (a : α)
  deriving DecidableEq, Repr

/-- `Pgrx::new` (src/pgrx/mod.rs lines 22-28), reduced to the one field it
computes: `ctx.config.get("package").unwrap().to_string()`, which panics
when the config map has no "package" entry. -/
def pgrxNew (ctx : Context) : PanicOr String :=
  match ctx.config.lookup "package" with
  | some pkg => .ok pkg
  | none => .panics

/-! ### Pipeline selection, src/lib.rs -/

/-- The directory handed to detection: what each pipeline's `evaluate`
inspects. -/
structure ProjectDir where
  make : MakeDir
  cargo : CargoToml
  deriving DecidableEq, Repr

/-- The external `pgxn_meta::dist::Pipeline` enum: the two variants the
crate recognizes plus the open remainder of the enum (matched by `_` in
`Build::new`), with its string rendering. -/
inductive DistPipeline where
  | pgxs
  | pgrx
  | other (name : String)
  deriving DecidableEq, Repr

/-- `ToString` for the pipeline enum; `Build::new` puts this into the
`UnknownPipeline` error. -/
def DistPipeline.toStr : DistPipeline → String
  | .pgxs => "pgxs"
  | .pgrx => "pgrx"
  | .other name => name

/-- Which pipeline implementation a `Build` value wraps (the payload, an
`Executor` plus `PgConfig`, is irrelevant to selection). -/
inductive BuildKind where
  | pgxsK
  | pgrxK
  deriving DecidableEq, Repr

/-- `Build::new` (src/lib.rs lines 44-50): construct the named pipeline
directly, or fail with `UnknownPipeline` carrying the name's string
rendering. No directory inspection happens at all. -/
def buildNew : DistPipeline → Except BuildError BuildKind
  | .pgxs => .ok .pgxsK
  | .pgrx => .ok .pgrxK
  | .other name => .error (.UnknownPipeline (DistPipeline.other name).toStr)

/-- `Build::detect` (src/lib.rs lines 54-78): start with the PGXS score,
let pgrx take over only on a strictly greater score, fail with `NoPipeline`
when the maximum is 0, and otherwise construct the winner. -/
def buildDetect (d : ProjectDir) : Except BuildError BuildKind :=
  let score := pgxsConfidence d.make
  let c := pgrxConfidence d.cargo
  let pgrxWins := c > score
  let score := if pgrxWins then c else score
  if score = 0 then .error .NoPipeline
  else if pgrxWins then .ok .pgrxK
  else .ok .pgxsK

/-- `Builder::new` (src/lib.rs lines 90-103) restricted to selection: an
explicitly declared pipeline (the release metadata's
`dependencies.pipeline`, flattening the two optional levels) goes through
`Build::new`, otherwise detection runs on the directory. -/
def builderSelect (explicitPipe : Option DistPipeline) (d : ProjectDir) :
    Except BuildError BuildKind :=
  match explicitPipe with
  | some pipe => buildNew pipe
  | none => buildDetect d

/-! ### The shared pipeline helpers, src/pipeline/mod.rs -/

/-- `Pipeline::maybe_sudo` (src/pipeline/mod.rs lines 44-55). The
`is_writeable` probe (lines 59-69) writes and deletes a real temporary
file, so it enters the model as an oracle `writable` giving the probe's
outcome per directory. -/
def maybe_sudo (cfg : PgConfig) (writable : String → Bool)
    (program : String) (want_sudo : Bool) : Cmd :=
  if want_sudo then
    match cfg.get "pkglibdir" with
    | some dir =>
        if !writable dir then ⟨"sudo", [program]⟩
        else ⟨program, []⟩
    | none => ⟨program, []⟩
  else ⟨program, []⟩

/-- The streaming loop of `Pipeline::run` (src/pipeline/mod.rs lines
104-137), over the sequence of `(fill_buf on stdout, fill_buf on stderr)`
results it observes: a pair of successful reads is written through (writes
to the process's own stdout/stderr are modelled as infallible) and the loop
breaks when both chunks are empty; any read failure hits the
`other => panic!(...)` arm. Returns `true` when the loop panics. -/
def runLoopPanics : List (Except String String × Except String String) → Bool
  | [] => false
  | (Except.ok a, Except.ok b) :: rest =>
      if a = "" && b = "" then false else runLoopPanics rest
  | _ => true

deriving instance DecidableEq for Except

/-- The child-process world observed by one `Pipeline::run` call: the
buffer reads of the streaming loop and the result of `child.wait()`. -/
structure RunChild where
  steps : List (Except String String × Except String String)
  waitRes : Except String ExitStatus
  deriving DecidableEq, Repr

/-- Outcome of `Pipeline::run`: normal return, error return, or panic. -/
inductive RunOutcome where
  | ok
  | err (e : BuildError)
  | panicked
  deriving DecidableEq, Repr

/-- `Pipeline::run` (src/pipeline/mod.rs lines 73-179): spawn failure is a
`Command` error with the OS error kind; a read failure in the streaming
loop panics; then `child.wait()` is mapped to success on exit code 0, a
`Command` error carrying the code for other codes, a signal-termination
`Command` error, or a `Command` error with the wait error's kind. -/
def pipelineRun (desc : String) (spawn : Except String RunChild) : RunOutcome :=
  match spawn with
  | .error kind => .err (.Command desc kind)
  | .ok child =>
      if runLoopPanics child.steps then .panicked
      else
        match child.waitRes with
        | .ok (.code 0) => .ok
        | .ok (.code n) =>
            .err (.Command desc ("exited with status code: " ++ toString n))
        | .ok .signal => .err (.Command desc "process terminated by signal")
        | .error kind => .err (.Command desc kind)

/-! ### The Executor, src/exec/mod.rs -/

/-- The child-process world observed by one `Executor::execute` call: the
per-line read results of the stdout pipe and of the stderr pipe (a reader
thread forwards lines until its stream ends or a read fails, then returns
the I/O error if any), and the result of `child.wait()`. -/
structure ChildStreams where
  outReads : List (Except String String)
  errReads : List (Except String String)
  waitRes : Except String ExitStatus
  deriving DecidableEq, Repr

/-- The error a reader thread returns: the first read failure in its
stream, if any (`for line in buf.lines() { tx.send(line?) }`). -/
def firstReadErr : List (Except String String) → Option String
  | [] => none
  | Except.ok _ :: rest => firstReadErr rest
  | Except.error e :: _ => some e

/-- `Executor::execute` (src/exec/mod.rs lines 62-169): spawn failure is a
`Command` error with the OS error kind. Lines are forwarded to the sinks
(in-memory writers here, so sink writes are infallible). After
`child.wait()` the stdout thread is joined first and its I/O error
propagates (as the `Io` wrapping), then the stderr thread's, and only then
is the wait result examined: code 0 succeeds, another code or a signal
termination is a `Command` error, a wait failure is a `Command` error with
the error kind. -/
def executorExecute (desc : String) (spawn : Except String ChildStreams) :
    Except BuildError Unit :=
  match spawn with
  | .error kind => .error (.Command desc kind)
  | .ok child =>
      let res := child.waitRes
      match firstReadErr child.outReads with
      | some e => .error (.Io e)
      | none =>
          match firstReadErr child.errReads with
          | some e => .error (.Io e)
          | none =>
              match res with
              | .ok (.code 0) => .ok ()
              | .ok (.code n) =>
                  .error (.Command desc ("exited with status code: " ++ toString n))
              | .ok .signal =>
                  .error (.Command desc "process terminated by signal")
              | .error kind => .error (.Command desc kind)

/-! ### PgConfig construction, src/pg_config/mod.rs -/

/-- What `cmd.output()` captures from the discovery process: its exit
status and the full stdout and stderr contents (as UTF-8 text; the parser
stops at invalid UTF-8, which the model omits). -/
structure ProcOutput where
  status : ExitStatus
  stdout : String
  stderr : String
  deriving DecidableEq, Repr

/-- `PgConfig::new` (src/pg_config/mod.rs lines 15-41), with the execution
world passed in: the list of commands it runs (it builds exactly one
`Command::new(pg_config)` with no arguments and calls `output()` on it
once) paired with its result. A spawn failure is a `Command` error with
the OS error kind; a non-success exit status is a `Command` error whose
message is the captured stdout (stderr is never consulted); otherwise the
stdout lines are parsed into the table. -/
def pgConfigNew (pg_config : String) (world : Except String ProcOutput) :
    List Cmd × Except BuildError PgConfig :=
  ([⟨pg_config, []⟩],
    match world with
    | .error kind => .error (.Command pg_config kind)
    | .ok out =>
        if out.status ≠ .code 0 then
          .error (.Command pg_config out.stdout)
        else
          .ok (pgConfigParse (rustLines out.stdout)))

/-! ### Helper lemmas about the makefile scan -/

/-- Lines matching neither pattern leave the running score unchanged. -/
theorem foldl_pgxs_no_match (lines : List String) (s : Nat)
    (h : ∀ l ∈ lines, pgcMatch l = false ∧ varMatch l = false) :
    lines.foldl pgxsLineScore s = s := by
  induction lines generalizing s with
  | nil => rfl
  | cons l rest ih =>
      have hl := h l (by simp)
      have hr : ∀ x ∈ rest, pgcMatch x = false ∧ varMatch x = false :=
        fun x hx => h x (List.mem_cons_of_mem _ hx)
      simp only [List.foldl_cons, pgxsLineScore, hl.1, hl.2]
      simp only [Bool.false_eq_true, if_false]
      exact ih s hr

/-- Without any `PG_CONFIG` line the scan ends at 200 exactly when some
line matches an extension variable, and otherwise at the start score. -/
theorem foldl_pgxs_no_pgc (lines : List String) (s : Nat)
    (h : ∀ l ∈ lines, pgcMatch l = false) :
    lines.foldl pgxsLineScore s = if lines.any varMatch then 200 else s := by
  induction lines generalizing s with
  | nil => simp
  | cons l rest ih =>
      have hl := h l (by simp)
      have hr : ∀ x ∈ rest, pgcMatch x = false :=
        fun x hx => h x (List.mem_cons_of_mem _ hx)
      by_cases hv : varMatch l
      · simp only [List.foldl_cons, pgxsLineScore, hl, hv, List.any_cons]
        simp only [Bool.false_eq_true, if_false, if_true, Bool.true_or, if_pos]
        rw [ih 200 hr]
        by_cases hrest : rest.any varMatch <;> simp [hrest]
      · simp only [List.foldl_cons, pgxsLineScore, hl, List.any_cons]
        simp only [Bool.false_eq_true, if_false, hv]
        rw [ih s hr]
        simp

/-- Claim C7: the Makefile pipeline's confidence tiers. A directory with
none of the three build files scores 0; a readable build file with an
extension-variable line and no `PG_CONFIG` line scores 200; a readable
build file matching neither pattern scores 127. -/
theorem c7_pgxs_confidence_tiers :
    (∀ d : MakeDir, chooseMakefile d = none → pgxsConfidence d = 0) ∧
    (∀ (d : MakeDir) (lines : List String), chooseMakefile d = some lines →
      d.openFails = false → (∃ l ∈ lines, varMatch l = true) →
      (∀ l ∈ lines, pgcMatch l = false) → pgxsConfidence d = 200) ∧
    (∀ (d : MakeDir) (lines : List String), chooseMakefile d = some lines →
      d.openFails = false →
      (∀ l ∈ lines, pgcMatch l = false ∧ varMatch l = false) →
      pgxsConfidence d = 127) := by
  refine ⟨?_, ?_, ?_⟩
  · intro d hnone
    simp [pgxsConfidence, pgxsEvaluate, hnone]
  · intro d lines hsome hopen hvar hpgc
    have hany : lines.any varMatch = true := by
      rcases hvar with ⟨l, hl, hv⟩
      exact List.any_eq_true.mpr ⟨l, hl, hv⟩
    simp [pgxsConfidence, pgxsEvaluate, hsome, hopen, pgxsScoreLines,
      foldl_pgxs_no_pgc lines 127 hpgc, hany]
  · intro d lines hsome hopen hnone
    simp [pgxsConfidence, pgxsEvaluate, hsome, hopen, pgxsScoreLines,
      foldl_pgxs_no_match lines 127 hnone]

/-- Witness for C7 at concrete directories: an empty directory, a build
file declaring `EXTENSION`, and a build file with only a rule line. -/
theorem c7_pgxs_confidence_tiers_witness :
    pgxsConfidence ⟨none, none, none, false⟩ = 0 ∧
    pgxsConfidence ⟨some ["EXTENSION = pair"], none, none, false⟩ = 200 ∧
    pgxsConfidence ⟨some ["all: build"], none, none, false⟩ = 127 :=
  ⟨c7_pgxs_confidence_tiers.1 _ rfl,
   c7_pgxs_confidence_tiers.2.1 _ ["EXTENSION = pair"] rfl rfl
     (by decide) (by decide),
   c7_pgxs_confidence_tiers.2.2 _ ["all: build"] rfl rfl (by decide)⟩

/-- Claim C1 (code bug): `Pgxs::evaluate` does not stop scanning after a
`PG_CONFIG` line, and a later extension-variable line overwrites the score
255 with 200, so a Makefile whose `PG_CONFIG` assignment precedes an
`EXTENSION` assignment scores 200, not the claimed 255; with the two lines
swapped the same file scores 255. -/
theorem c1_pgxs_pg_config_not_short_circuit :
    pgxsEvaluate ⟨some ["PG_CONFIG = foo", "EXTENSION = bar"], none, none, false⟩ =
      ⟨200, [], none⟩ ∧
    pgxsEvaluate ⟨some ["EXTENSION = bar", "PG_CONFIG = foo"], none, none, false⟩ =
      ⟨255, [], none⟩ :=
  ⟨rfl, rfl⟩

/-! ### Helper lemmas about pgrx evaluation -/

/-- When the manifest scores positive, every branch of `Pgrx::evaluate`
reports that score. -/
theorem pgrxEvaluate_score_pos (m : Manifest) (h : 0 < get_score m) :
    (pgrxEvaluate (.parsed m)).score = get_score m := by
  simp only [pgrxEvaluate]
  cases hp : m.package with
  | some pkg => simp [h]
  | none =>
      cases hw : m.workspace with
      | some w => by_cases hm : w.members = [] <;> simp [h, hm]
      | none => simp [h]

/-- Claim C8: the pgrx pipeline's confidence tiers. No Cargo.toml scores 0;
an unparsable manifest, or a parsed one that declares pgrx neither in its
dependencies nor in its workspace dependencies, scores 1; pgrx in the main
dependencies table or the workspace dependencies table scores 255. -/
theorem c8_pgrx_confidence_tiers :
    pgrxConfidence .absent = 0 ∧
    pgrxConfidence .unparsable = 1 ∧
    (∀ m : Manifest, m.dependencies.contains "pgrx" = false →
      (∀ w, m.workspace = some w → w.dependencies.contains "pgrx" = false) →
      pgrxConfidence (.parsed m) = 1) ∧
    (∀ m : Manifest, m.dependencies.contains "pgrx" = true →
      pgrxConfidence (.parsed m) = 255) ∧
    (∀ (m : Manifest) (w : Workspace), m.workspace = some w →
      w.dependencies.contains "pgrx" = true →
      pgrxConfidence (.parsed m) = 255) := by
  refine ⟨rfl, rfl, ?_, ?_, ?_⟩
  · intro m hdep hwork
    simp at hdep
    have hs : get_score m = 0 := by
      cases hw : m.workspace with
      | none => simp [get_score, hdep, hw]
      | some w =>
          have h2 := hwork w hw
          simp at h2
          simp [get_score, hdep, hw, h2]
    simp [pgrxConfidence, pgrxEvaluate, hs]
  · intro m hdep
    simp at hdep
    have hs : get_score m = 255 := by simp [get_score, hdep]
    have := pgrxEvaluate_score_pos m (by rw [hs]; norm_num)
    simp [pgrxConfidence, this, hs]
  · intro m w hw hww
    simp at hww
    have hs : get_score m = 255 := by
      by_cases hd : "pgrx" ∈ m.dependencies <;> simp [get_score, hd, hw, hww]
    have := pgrxEvaluate_score_pos m (by rw [hs]; norm_num)
    simp [pgrxConfidence, this, hs]

/-- Witness for C8 at concrete manifests: one with only serde as a
dependency, one with pgrx as a direct dependency, and a workspace manifest
with pgrx among the workspace dependencies. -/
theorem c8_pgrx_confidence_tiers_witness :
    pgrxConfidence .absent = 0 ∧
    pgrxConfidence .unparsable = 1 ∧
    pgrxConfidence (.parsed ⟨some "x", ["serde"], none⟩) = 1 ∧
    pgrxConfidence (.parsed ⟨some "x", ["pgrx"], none⟩) = 255 ∧
    pgrxConfidence (.parsed ⟨none, [], some ⟨["pgrx"], ["m1"]⟩⟩) = 255 :=
  ⟨c8_pgrx_confidence_tiers.1,
   c8_pgrx_confidence_tiers.2.1,
   c8_pgrx_confidence_tiers.2.2.1 ⟨some "x", ["serde"], none⟩ (by decide)
     (fun w hw => Option.noConfusion hw),
   c8_pgrx_confidence_tiers.2.2.2.1 ⟨some "x", ["pgrx"], none⟩ (by decide),
   c8_pgrx_confidence_tiers.2.2.2.2 ⟨none, [], some ⟨["pgrx"], ["m1"]⟩⟩
     ⟨["pgrx"], ["m1"]⟩ rfl (by decide)⟩

/-- Claim C10: `Pgrx::new` unwraps the "package" config entry, so it panics
on every Context lacking that key; and `Pgrx::evaluate` really produces
such Contexts at full score 255 when pgrx is declared only in the workspace
dependencies table and the manifest has no `[package]` table — the score is
255, the config map is empty, and an error is recorded in `err` instead. -/
theorem c10_pgrx_new_unwrap_panics :
    (∀ ctx : Context, ctx.config.lookup "package" = none → pgrxNew ctx = .panics) ∧
    (∀ (m : Manifest) (w : Workspace), m.package = none →
      m.dependencies.contains "pgrx" = false → m.workspace = some w →
      w.dependencies.contains "pgrx" = true →
      (pgrxEvaluate (.parsed m)).score = 255 ∧
      (pgrxEvaluate (.parsed m)).config = [] ∧
      (pgrxEvaluate (.parsed m)).err ≠ none ∧
      pgrxNew (pgrxEvaluate (.parsed m)) = .panics) := by
  constructor
  · intro ctx h
    simp [pgrxNew, h]
  · intro m w hp hdep hw hww
    simp at hdep
    simp at hww
    have hs : get_score m = 255 := by simp [get_score, hdep, hw, hww]
    by_cases hm : w.members = [] <;>
      simp [pgrxEvaluate, pgrxNew, hs, hp, hw, hm, List.lookup]

/-- Witness for C10: the empty Context panics, and the concrete
workspace-only manifest produces score 255, empty config, a recorded
error, and then a panic in `Pgrx::new`. -/
theorem c10_pgrx_new_unwrap_panics_witness :
    pgrxNew ⟨0, [], none⟩ = .panics ∧
    ((pgrxEvaluate (.parsed ⟨none, [], some ⟨["pgrx"], []⟩⟩)).score = 255 ∧
      (pgrxEvaluate (.parsed ⟨none, [], some ⟨["pgrx"], []⟩⟩)).config = [] ∧
      (pgrxEvaluate (.parsed ⟨none, [], some ⟨["pgrx"], []⟩⟩)).err ≠ none ∧
      pgrxNew (pgrxEvaluate (.parsed ⟨none, [], some ⟨["pgrx"], []⟩⟩)) = .panics) :=
  ⟨c10_pgrx_new_unwrap_panics.1 ⟨0, [], none⟩ rfl,
   c10_pgrx_new_unwrap_panics.2 ⟨none, [], some ⟨["pgrx"], []⟩⟩ ⟨["pgrx"], []⟩
     rfl (by decide) rfl (by decide)⟩

/-- Claim C2: pipeline selection. An explicitly named pipeline is
constructed directly — the result does not depend on the directory at all —
and an unrecognized name fails with `UnknownPipeline` carrying that name;
without an explicit name, selection fails with `NoPipeline` exactly when
both confidences are 0, and otherwise picks pgrx only when its score
strictly exceeds the PGXS score, so ties go to the make-based pipeline. -/
theorem c2_pipeline_selection :
    (∀ name, buildNew (.other name) = .error (.UnknownPipeline name)) ∧
    buildNew .pgxs = .ok .pgxsK ∧
    buildNew .pgrx = .ok .pgrxK ∧
    (∀ (pipe : DistPipeline) (d d' : ProjectDir),
      builderSelect (some pipe) d = builderSelect (some pipe) d') ∧
    (∀ d : ProjectDir, builderSelect none d = .error .NoPipeline ↔
      pgxsConfidence d.make = 0 ∧ pgrxConfidence d.cargo = 0) ∧
    (∀ d : ProjectDir, ¬(pgxsConfidence d.make = 0 ∧ pgrxConfidence d.cargo = 0) →
      builderSelect none d =
        .ok (if pgxsConfidence d.make < pgrxConfidence d.cargo
          then .pgrxK else .pgxsK)) := by
  refine ⟨fun name => rfl, rfl, rfl, fun pipe d d' => rfl, ?_, ?_⟩
  · intro d
    simp only [builderSelect, buildDetect, gt_iff_lt]
    by_cases hgt : pgxsConfidence d.make < pgrxConfidence d.cargo
    · simp only [hgt, if_true]
      have hb : ¬ pgrxConfidence d.cargo = 0 := by omega
      rw [if_neg hb]
      exact ⟨fun h => Except.noConfusion h, fun h => absurd h.2 hb⟩
    · simp only [hgt, if_false]
      by_cases ha : pgxsConfidence d.make = 0
      · rw [if_pos ha]
        exact ⟨fun _ => ⟨ha, by omega⟩, fun _ => rfl⟩
      · rw [if_neg ha]
        exact ⟨fun h => Except.noConfusion h, fun h => absurd h.1 ha⟩
  · intro d hnz
    simp only [builderSelect, buildDetect, gt_iff_lt]
    by_cases hgt : pgxsConfidence d.make < pgrxConfidence d.cargo
    · simp only [hgt, if_true]
      have hb : ¬ pgrxConfidence d.cargo = 0 := by omega
      rw [if_neg hb]
    · simp only [hgt, if_false]
      have ha : ¬ pgxsConfidence d.make = 0 := fun h0 => hnz ⟨h0, by omega⟩
      rw [if_neg ha]

/-- Witness for C2 at concrete inputs: a Makefile-only directory picks
PGXS, a pgrx-manifest-only directory picks pgrx, a directory scoring 255
on both (a tie) picks PGXS, an empty directory fails with `NoPipeline`,
and an unknown explicit pipeline name fails with `UnknownPipeline`. -/
theorem c2_pipeline_selection_witness :
    builderSelect none ⟨⟨some ["EXTENSION = pair"], none, none, false⟩, .absent⟩ =
      .ok .pgxsK ∧
    builderSelect none
      ⟨⟨none, none, none, false⟩, .parsed ⟨some "x", ["pgrx"], none⟩⟩ = .ok .pgrxK ∧
    builderSelect none
      ⟨⟨some ["PG_CONFIG = pgc"], none, none, false⟩,
        .parsed ⟨some "x", ["pgrx"], none⟩⟩ = .ok .pgxsK ∧
    builderSelect none ⟨⟨none, none, none, false⟩, .absent⟩ = .error .NoPipeline ∧
    buildNew (.other "meson") = .error (.UnknownPipeline "meson") :=
  ⟨(c2_pipeline_selection.2.2.2.2.2 _ (by decide)).trans (by decide),
   (c2_pipeline_selection.2.2.2.2.2 _ (by decide)).trans (by decide),
   (c2_pipeline_selection.2.2.2.2.2 _ (by decide)).trans (by decide),
   (c2_pipeline_selection.2.2.2.2.1 _).mpr (by decide),
   c2_pipeline_selection.1 "meson"⟩

/-- Claim C4: `maybe_sudo` elevates — returns `sudo <program>` — if and
only if the sudo flag is set, the pg_config table has a `pkglibdir` entry,
and the writability probe fails on that directory; in every other case the
bare command is returned. -/
theorem c4_maybe_sudo_characterization :
    ∀ (cfg : PgConfig) (writable : String → Bool) (program : String) (ws : Bool),
      (maybe_sudo cfg writable program ws = ⟨"sudo", [program]⟩ ∨
        maybe_sudo cfg writable program ws = ⟨program, []⟩) ∧
      (maybe_sudo cfg writable program ws = ⟨"sudo", [program]⟩ ↔
        ws = true ∧ ∃ dir, cfg.get "pkglibdir" = some dir ∧ writable dir = false) := by
  intro cfg writable program ws
  cases ws with
  | false => simp [maybe_sudo]
  | true =>
      cases hdir : cfg.get "pkglibdir" with
      | none => simp [maybe_sudo, hdir]
      | some dir =>
          by_cases hw : writable dir
          · simp [maybe_sudo, hdir, hw]
          · simp only [Bool.not_eq_true] at hw
            simp [maybe_sudo, hdir, hw]

/-! ### Helper lemmas about pg_config parsing -/

/-- The ASCII uppercase letters (proof helper for `lowerChar`). -/
def asciiUppers : List Char :=
  ['A', 'B', 'C', 'D', 'E', 'F', 'G', 'H', 'I', 'J', 'K', 'L', 'M',
   'N', 'O', 'P', 'Q', 'R', 'S', 'T', 'U', 'V', 'W', 'X', 'Y', 'Z']

/-- The ASCII lowercase letters (proof helper for `lowerChar`). -/
def asciiLowers : List Char :=
  ['a', 'b', 'c', 'd', 'e', 'f', 'g', 'h', 'i', 'j', 'k', 'l', 'm',
   'n', 'o', 'p', 'q', 'r', 's', 't', 'u', 'v', 'w', 'x', 'y', 'z']

/-- `lowerChar` fixes every character that is not ASCII uppercase. -/
theorem lowerChar_fix (c : Char) (h : c ∉ asciiUppers) : lowerChar c = c := by
  unfold lowerChar
  split <;> first
    | rfl
    | (exact absurd (by decide) h)

/-- ASCII lowercasing a character twice is the same as doing it once. -/
theorem lowerChar_idem (c : Char) : lowerChar (lowerChar c) = lowerChar c := by
  by_cases h : c ∈ asciiUppers
  · have h1 : ∀ x ∈ asciiUppers, lowerChar x ∈ asciiLowers := by decide
    have h2 : ∀ x ∈ asciiLowers, x ∉ asciiUppers := by decide
    exact lowerChar_fix _ (h2 _ (h1 _ h))
  · rw [lowerChar_fix c h]
    exact lowerChar_fix c h

/-- ASCII lowercasing a string is idempotent, so every key the parser
stores is a fixed point of `asciiLower`. -/
theorem asciiLower_idem (s : String) : asciiLower (asciiLower s) = asciiLower s := by
  unfold asciiLower
  simp only [List.map_map]
  congr 1
  exact List.map_congr_left fun c _ => lowerChar_idem c

/-- The value the parsing loop has stored under key `k` after the given
lines: the remainder of the last line whose lowercased pre-delimiter
segment equals `k`, falling back to `dflt` when no line matches. -/
def lastStoredFrom (lines : List String) (k : String) (dflt : Option String) :
    Option String :=
  lines.foldl
    (fun acc line =>
      match splitKV line with
      | some p => if asciiLower p.1 = k then some p.2 else acc
      | none => acc)
    dflt

/-- The parsing fold agrees pointwise with `lastStoredFrom`. -/
theorem pgConfigParse_fold_eq (lines : List String)
    (m : String → Option String) (k : String) :
    (lines.foldl
      (fun m line =>
        match splitKV line with
        | some p => insertKV m (asciiLower p.1) p.2
        | none => m)
      m) k = lastStoredFrom lines k (m k) := by
  induction lines generalizing m with
  | nil => rfl
  | cons line rest ih =>
      simp only [List.foldl_cons, lastStoredFrom] at *
      cases hs : splitKV line with
      | none => simp only [hs]; exact ih m
      | some p =>
          simp only [hs]
          rw [ih]
          unfold insertKV
          congr 1
          by_cases he : asciiLower p.1 = k
          · rw [if_pos he.symm, if_pos he]
          · rw [if_neg (fun h => he h.symm), if_neg he]

/-- A fold that starts from an already-stored value never reports absent. -/
theorem lastStoredFrom_some (lines : List String) (k v : String) :
    lastStoredFrom lines k (some v) ≠ none := by
  induction lines generalizing v with
  | nil => simp [lastStoredFrom]
  | cons line rest ih =>
      simp only [lastStoredFrom, List.foldl_cons] at *
      cases hs : splitKV line with
      | none =>
          simp only [hs]
          exact ih v
      | some p =>
          simp only [hs]
          by_cases he : asciiLower p.1 = k
          · rw [if_pos he]
            exact ih p.2
          · rw [if_neg he]
            exact ih v

/-- A key that is not all-ASCII-lowercase is never stored: every stored key
is the image of `asciiLower`, hence a fixed point of it. -/
theorem lastStoredFrom_none_of_not_lower (lines : List String) (k : String)
    (hk : k ≠ asciiLower k) : lastStoredFrom lines k none = none := by
  induction lines with
  | nil => rfl
  | cons line rest ih =>
      simp only [lastStoredFrom, List.foldl_cons] at *
      cases hs : splitKV line with
      | none =>
          simp only [hs]
          exact ih
      | some p =>
          simp only [hs]
          have he : ¬ asciiLower p.1 = k := by
            intro he
            exact hk (by rw [← he, asciiLower_idem])
          rw [if_neg he]
          exact ih

/-- When no line stores the key, the fold keeps the default. -/
theorem lastStoredFrom_of_absent (lines : List String) (k : String)
    (h : ∀ l ∈ lines, ∀ p : String × String, splitKV l = some p →
      asciiLower p.1 ≠ k) (dflt : Option String) :
    lastStoredFrom lines k dflt = dflt := by
  induction lines generalizing dflt with
  | nil => rfl
  | cons line rest ih =>
      simp only [lastStoredFrom, List.foldl_cons] at *
      have hrest := fun l hl => h l (List.mem_cons_of_mem _ hl)
      cases hs : splitKV line with
      | none =>
          simp only [hs]
          exact ih hrest dflt
      | some p =>
          simp only [hs]
          rw [if_neg (h line (by simp) p hs)]
          exact ih hrest dflt

/-- When some line stores the key, the fold does not report absent. -/
theorem lastStoredFrom_ne_none_of_mem (lines : List String) (k : String)
    (h : ∃ l ∈ lines, ∃ p : String × String, splitKV l = some p ∧
      asciiLower p.1 = k) (dflt : Option String) :
    lastStoredFrom lines k dflt ≠ none := by
  induction lines generalizing dflt with
  | nil => rcases h with ⟨l, hl, _⟩; cases hl
  | cons line rest ih =>
      simp only [lastStoredFrom, List.foldl_cons] at *
      rcases h with ⟨l, hl, p, hp, hk⟩
      rcases List.mem_cons.mp hl with rfl | hl'
      · simp only [hp]
        rw [if_pos hk]
        exact lastStoredFrom_some rest k p.2
      · cases hs : splitKV line with
        | none =>
            simp only [hs]
            exact ih ⟨l, hl', p, hp, hk⟩ dflt
        | some q =>
            simp only [hs]
            by_cases he : asciiLower q.1 = k
            · rw [if_pos he]
              exact lastStoredFrom_some rest k q.2
            · rw [if_neg he]
              exact ih ⟨l, hl', p, hp, hk⟩ dflt

/-- Claim C5: `PgConfig` parsing and lookup. `get k` equals the value of
the last output line containing " = " whose lowercased pre-delimiter text
is `k` (absent when there is none); lines without the delimiter contribute
nothing; any key that is not all-lowercase — in particular any
different-cased variant of a stored key — and any key no line stores is
absent. -/
theorem c5_pg_config_parse_get :
    ∀ (lines : List String) (k : String),
      (pgConfigParse lines).get k = lastStoredFrom lines k none ∧
      (k ≠ asciiLower k → (pgConfigParse lines).get k = none) ∧
      ((∀ l ∈ lines, ∀ p : String × String, splitKV l = some p →
          asciiLower p.1 ≠ k) → (pgConfigParse lines).get k = none) ∧
      ((∃ l ∈ lines, ∃ p : String × String, splitKV l = some p ∧
          asciiLower p.1 = k) → (pgConfigParse lines).get k ≠ none) := by
  intro lines k
  have hmain : (pgConfigParse lines).get k = lastStoredFrom lines k none :=
    pgConfigParse_fold_eq lines (fun _ => none) k
  refine ⟨hmain, ?_, ?_, ?_⟩
  · intro hk
    rw [hmain]
    exact lastStoredFrom_none_of_not_lower lines k hk
  · intro h
    rw [hmain]
    exact lastStoredFrom_of_absent lines k h none
  · intro h
    rw [hmain]
    exact lastStoredFrom_ne_none_of_mem lines k h none

/-- Witness for C5 on a concrete `pg_config` output: the lowercased key is
stored with the full remainder of the line, the uppercase original and an
unknown key are absent. -/
theorem c5_pg_config_parse_get_witness :
    (pgConfigParse ["BINDIR = /opt/pg/bin", "no delimiter line"]).get "bindir" =
      lastStoredFrom ["BINDIR = /opt/pg/bin", "no delimiter line"] "bindir" none ∧
    (pgConfigParse ["BINDIR = /opt/pg/bin", "no delimiter line"]).get "BINDIR" =
      none ∧
    (pgConfigParse ["BINDIR = /opt/pg/bin", "no delimiter line"]).get "nonesuch" =
      none ∧
    (pgConfigParse ["BINDIR = /opt/pg/bin", "no delimiter line"]).get "bindir" ≠
      none :=
  ⟨(c5_pg_config_parse_get ["BINDIR = /opt/pg/bin", "no delimiter line"] "bindir").1,
   (c5_pg_config_parse_get _ "BINDIR").2.1 (by decide),
   (c5_pg_config_parse_get ["BINDIR = /opt/pg/bin", "no delimiter line"]
     "nonesuch").2.2.1 (by decide),
   (c5_pg_config_parse_get ["BINDIR = /opt/pg/bin", "no delimiter line"]
     "bindir").2.2.2 (by decide)⟩

/-- Claim C9: `PgConfig::new` runs the discovery executable exactly once
with no arguments, and whenever the process exits with a non-success
status it fails with a `Command` error carrying the command description
and the captured stdout; the stderr content never influences the result. -/
theorem c9_pg_config_new_failure :
    ∀ (prog : String) (world : Except String ProcOutput),
      (pgConfigNew prog world).1 = [⟨prog, []⟩] ∧
      (∀ out : ProcOutput, world = .ok out → out.status ≠ .code 0 →
        (pgConfigNew prog world).2 = .error (.Command prog out.stdout)) ∧
      (∀ (st : ExitStatus) (o e e' : String),
        (pgConfigNew prog (.ok ⟨st, o, e⟩)).2 =
          (pgConfigNew prog (.ok ⟨st, o, e'⟩)).2) := by
  intro prog world
  refine ⟨rfl, ?_, ?_⟩
  · intro out hw hst
    subst hw
    simp [pgConfigNew, hst]
  · intro st o e e'
    rfl

/-- Witness for C9: a discovery tool that exits with status 1 and prints
"boom" on stdout yields the `Command` error carrying "boom", after exactly
one argument-less invocation. -/
theorem c9_pg_config_new_failure_witness :
    (pgConfigNew "pg_config" (.ok ⟨.code 1, "boom", "ignored"⟩)).1 =
      [⟨"pg_config", []⟩] ∧
    (pgConfigNew "pg_config" (.ok ⟨.code 1, "boom", "ignored"⟩)).2 =
      .error (.Command "pg_config" "boom") :=
  ⟨(c9_pg_config_new_failure "pg_config" (.ok ⟨.code 1, "boom", "ignored"⟩)).1,
   (c9_pg_config_new_failure "pg_config" (.ok ⟨.code 1, "boom", "ignored"⟩)).2.1
     ⟨.code 1, "boom", "ignored"⟩ rfl (by decide)⟩

/-- Claim C6 counterexample: a command that is spawned and exits with
status code 0, but whose stdout pipe produces a read failure, does not
return Ok — `Executor::execute` returns the wrapped I/O error — so "Ok if
and only if spawned and exited with status code 0" is false as stated. -/
theorem c6_exit_status_counterexample :
    executorExecute "make"
        (.ok ⟨[Except.error "broken pipe"], [], .ok (.code 0)⟩) ≠ .ok () ∧
    executorExecute "make"
        (.ok ⟨[Except.error "broken pipe"], [], .ok (.code 0)⟩) =
      .error (.Io "broken pipe") :=
  ⟨by decide, rfl⟩

/-- Claim C6 as amended: `Executor::execute` returns Ok iff the child was
spawned, both pipes were read to the end without an I/O failure, and the
exit status code was 0. Spawn failure yields a `Command` error with the OS
error kind; absent read failures, a non-zero exit code yields a `Command`
error carrying the code and signal termination yields the
signal-terminated message; a pipe read failure yields the wrapped I/O
error instead. -/
theorem c6_executor_exit_status :
    (∀ desc kind, executorExecute desc (.error kind) =
      .error (.Command desc kind)) ∧
    (∀ (desc : String) (ch : ChildStreams),
      (executorExecute desc (.ok ch) = .ok () ↔
        firstReadErr ch.outReads = none ∧ firstReadErr ch.errReads = none ∧
          ch.waitRes = .ok (.code 0)) ∧
      (firstReadErr ch.outReads = none → firstReadErr ch.errReads = none →
        (∀ n, ch.waitRes = .ok (.code (n + 1)) →
          executorExecute desc (.ok ch) =
            .error (.Command desc
              ("exited with status code: " ++ toString (n + 1)))) ∧
        (ch.waitRes = .ok .signal →
          executorExecute desc (.ok ch) =
            .error (.Command desc "process terminated by signal"))) ∧
      (∀ e, firstReadErr ch.outReads = some e →
        executorExecute desc (.ok ch) = .error (.Io e)) ∧
      (firstReadErr ch.outReads = none →
        ∀ e, firstReadErr ch.errReads = some e →
          executorExecute desc (.ok ch) = .error (.Io e))) := by
  refine ⟨fun desc kind => rfl, ?_⟩
  intro desc ch
  refine ⟨?_, ?_, ?_, ?_⟩
  · cases h1 : firstReadErr ch.outReads with
    | some e => simp [executorExecute, h1]
    | none =>
        cases h2 : firstReadErr ch.errReads with
        | some e => simp [executorExecute, h1, h2]
        | none =>
            cases hw : ch.waitRes with
            | error kind => simp [executorExecute, h1, h2, hw]
            | ok st =>
                cases st with
                | code n =>
                    cases n with
                    | zero => simp [executorExecute, h1, h2, hw]
                    | succ m => simp [executorExecute, h1, h2, hw]
                | signal => simp [executorExecute, h1, h2, hw]
  · intro h1 h2
    constructor
    · intro n hw
      simp [executorExecute, h1, h2, hw]
    · intro hw
      simp [executorExecute, h1, h2, hw]
  · intro e h1
    simp [executorExecute, h1]
  · intro h1 e h2
    simp [executorExecute, h1, h2]

/-- Witness for the amended C6 on concrete worlds: spawn failure, clean
exit 0, exit code 2, signal termination, and a stderr-pipe read failure. -/
theorem c6_executor_exit_status_witness :
    executorExecute "make" (.error "entity not found") =
      .error (.Command "make" "entity not found") ∧
    executorExecute "make" (.ok ⟨[Except.ok "line1"], [], .ok (.code 0)⟩) =
      .ok () ∧
    executorExecute "make" (.ok ⟨[], [], .ok (.code 2)⟩) =
      .error (.Command "make" ("exited with status code: " ++ toString 2)) ∧
    executorExecute "make" (.ok ⟨[], [], .ok .signal⟩) =
      .error (.Command "make" "process terminated by signal") ∧
    executorExecute "make" (.ok ⟨[], [Except.error "oops"], .ok (.code 0)⟩) =
      .error (.Io "oops") :=
  ⟨c6_executor_exit_status.1 "make" "entity not found",
   (c6_executor_exit_status.2 "make"
     ⟨[Except.ok "line1"], [], .ok (.code 0)⟩).1.mpr ⟨rfl, rfl, rfl⟩,
   ((c6_executor_exit_status.2 "make" ⟨[], [], .ok (.code 2)⟩).2.1 rfl rfl).1
     1 rfl,
   ((c6_executor_exit_status.2 "make" ⟨[], [], .ok .signal⟩).2.1 rfl rfl).2 rfl,
   (c6_executor_exit_status.2 "make"
     ⟨[], [Except.error "oops"], .ok (.code 0)⟩).2.2.2 rfl "oops" rfl⟩

/-- Claim C3 (code bug): an I/O failure while reading a child pipe makes
`Pipeline::run` reach its `other => panic!(...)` arm and panic rather than
return an error value, while `Executor::execute` on the same situation
does return the wrapped I/O error. -/
theorem c3_pipeline_run_read_failure_panics :
    pipelineRun "make all"
        (.ok ⟨[(Except.error "other error", Except.ok "")], .ok (.code 0)⟩) =
      .panicked ∧
    executorExecute "make all"
        (.ok ⟨[Except.error "other error"], [], .ok (.code 0)⟩) =
      .error (.Io "other error") :=
  ⟨rfl, rfl⟩
